import Mathlib

/-!
Verification of the SAM simple-filters module (package `sam`, file
`simple-filters.go`) of the elprep repository: the reference-dictionary
replacement filter with sort-order invalidation, program-record chain
extension, chromosome renaming, REFID assignment, read-group stamping and
the pure predicate filters.

Go `map[string]string` values (`utils.StringMap`) are embedded as
association lists with unique keys; `m[k]` (returning the zero value `""`
for a missing key) is `smGetD`, the two-result form `v, ok := m[k]` is
`smGet`, and `m[k] = v` is `smSet`.  Go slices become Lean lists.  The
randomness consumed by `AddPGLine` is made explicit as a list of draws
(the successive results of `rand.Int63n(0x10000)`).  A Go type assertion
that can panic is embedded by returning `Option`: `none` is the panic.
-/

namespace Sam

/-- Modelled from the spec: `utils.StringMap` is a Go `map[string]string`
(tag name to value), embedded as an association list with unique keys. -/
abbrev StringMap := List (String × String)

/-- Lookup in a `StringMap`: the two-result Go form `v, ok := m[k]`. -/
def smGet : StringMap → String → Option String
  | [], _ => none
  | (k', v') :: rest, k => if k' = k then some v' else smGet rest k

/-- Lookup in a `StringMap` with Go's zero-value default: `m[k]`. -/
def smGetD (m : StringMap) (k : String) : String :=
  (smGet m k).getD ""

/-- Assignment `m[k] = v` on a `StringMap`: replace the binding when the
key is present, otherwise add it. -/
def smSet : StringMap → String → String → StringMap
  | [], k, v => [(k, v)]
  | (k', v') :: rest, k, v =>
    if k' = k then (k, v) :: rest else (k', v') :: smSet rest k v

/-- Key-presence test, the `ok` of `v, ok := m[k]`. -/
def smHasKey (m : StringMap) (k : String) : Bool :=
  (smGet m k).isSome

/-- Modelled from the spec: `utils.Find` returns the index of the first
slice element satisfying the predicate, or -1 when there is none. -/
def Find {α : Type} (l : List α) (p : α → Bool) : Int :=
  match l.findIdx? p with
  | some i => (i : Int)
  | none => -1

/-- A typed optional-tag value as stored in an Alignment's TAGS; `int`
is the Go `int32` case, the other constructors stand for the remaining
dynamic types a SAM tag value can carry. -/
inductive TagValue where
  | int (i : Int)
  | str (s : String)
  | char (c : Char)
  deriving DecidableEq

/-- Optional tags of an Alignment (`utils.SmallMap`), an association
list from interned tag names to typed values. -/
abbrev Tags := List (String × TagValue)

/-- `TAGS.Get`: first binding of the key, with a found flag. -/
def tagsGet : Tags → String → Option TagValue
  | [], _ => none
  | (k', v') :: rest, k => if k' = k then some v' else tagsGet rest k

/-- Modelled from the spec: the Header record of a SAM file — `HD` tag
map (with the sort order under key "SO"), the ordered reference-sequence
dictionary `SQ`, read groups `RG`, the program-record chain `PG`, and
opaque user records. -/
structure Header where
  HD : StringMap
  SQ : List StringMap
  RG : List StringMap
  PG : List StringMap
  UserRecords : List (String × String)
  deriving DecidableEq

/-- Modelled from the spec: `header.SetHD_SO` stores a sort order under
the "SO" key of `HD`. -/
def Header.SetHD_SO (h : Header) (so : String) : Header :=
  { h with HD := smSet h.HD "SO" so }

/-- Modelled from the spec: the Alignment record — flag bitmask,
position, reference names, CIGAR string, optional tags, and the
filter-assigned temporary fields REFID and RG. -/
structure Alignment where
  FLAG : Nat
  POS : Int
  RNAME : String
  RNEXT : String
  CIGAR : String
  TAGS : Tags
  REFID : Int
  RG : String
  deriving DecidableEq

/-- Modelled from the spec: the Unmapped FLAG bit (0x4 in the SAM
standard; the constant's definition is outside the sources at hand). -/
def Unmapped : Nat := 0x4

/-- Modelled from the spec: the Duplicate FLAG bit (0x400 in the SAM
standard; the constant's definition is outside the sources at hand). -/
def Duplicate : Nat := 0x400

/-- The sort-order checking loop of `ReplaceReferenceSequenceDictionary`
(simple-filters.go lines 17-30): walk the replacement dictionary,
tracking the old index of the previous matched name; downgrade SO to
"unknown" and stop at the first non-increase. -/
def soLoop (oldDict : List StringMap) (header : Header) :
    List StringMap → Int → Header
  | [], _ => header
  | entry :: rest, previousPos =>
    let sn := smGetD entry "SN"
    let pos := Find oldDict (fun entry => smGetD entry "SN" == sn)
    if 0 ≤ pos then
      if previousPos < pos then soLoop oldDict header rest pos
      else header.SetHD_SO "unknown"
    else soLoop oldDict header rest previousPos

/-- The membership table built by `ReplaceReferenceSequenceDictionary`
(a Go `map[string]bool` filled entry by entry; lookup of an absent key
yields the zero value false). -/
def buildDictTable (dict : List StringMap) : String → Bool :=
  dict.foldl (fun table entry =>
    fun s => if s = smGetD entry "SN" then true else table s) (fun _ => false)

/-- `ReplaceReferenceSequenceDictionary` (lines 14-39): check the sort
order against the old dictionary when SO is "coordinate", replace SQ,
and return the membership filter on RNAME. -/
def ReplaceReferenceSequenceDictionary (dict : List StringMap)
    (header : Header) : Header × (Alignment → Alignment × Bool) :=
  let header1 :=
    if smGetD header.HD "SO" = "coordinate" then soLoop header.SQ header dict (-1)
    else header
  let dictTable := buildDictTable dict
  ({ header1 with SQ := dict }, fun aln => (aln, dictTable aln.RNAME))

/-- `FilterUnmappedReads` (lines 66-68). -/
def FilterUnmappedReads (_ : Header) (aln : Alignment) : Alignment × Bool :=
  (aln, aln.FLAG &&& Unmapped == 0)

/-- `FilterUnmappedReadsStrict` (lines 74-78). -/
def FilterUnmappedReadsStrict (_ : Header) (aln : Alignment) :
    Alignment × Bool :=
  (aln, (aln.FLAG &&& Unmapped == 0) && !(aln.POS == 0) && !(aln.RNAME == "*"))

/-- `FilterNonExactMappingReads` (lines 84-86):
`!strings.ContainsAny(aln.CIGAR, "IDNHPX=")`. -/
def FilterNonExactMappingReads (_ : Header) (aln : Alignment) :
    Alignment × Bool :=
  (aln, !(aln.CIGAR.toList.any (fun c => "IDNHPX=".toList.contains c)))

/-- Interned tag name (lines 90-96). -/
def X0 : String := "X0"

/-- Interned tag name (lines 90-96). -/
def X1 : String := "X1"

/-- Interned tag name (lines 90-96). -/
def XM : String := "XM"

/-- Interned tag name (lines 90-96). -/
def XO : String := "XO"

/-- Interned tag name (lines 90-96). -/
def XG : String := "XG"

/-- One step `if xN, ok := aln.TAGS.Get(K); !ok || xN.(int32) != e`
of `FilterNonExactMappingReadsStrict`: a missing tag returns false, a
present tag of a non-int32 dynamic type makes the type assertion panic
(embedded as `none`), a mismatched value returns false, and otherwise
evaluation falls through to the next check. -/
def tagCheck (tags : Tags) (key : String) (expected : Int)
    (next : Option Bool) : Option Bool :=
  match tagsGet tags key with
  | none => some false
  | some (TagValue.int i) => if i = expected then next else some false
  | some _ => none

/-- `FilterNonExactMappingReadsStrict` (lines 103-123); `none` is a
panic of one of the five int32 type assertions. -/
def FilterNonExactMappingReadsStrict (_ : Header) (aln : Alignment) :
    Option Bool :=
  tagCheck aln.TAGS X0 1 (tagCheck aln.TAGS X1 0 (tagCheck aln.TAGS XM 0
    (tagCheck aln.TAGS XO 0 (tagCheck aln.TAGS XG 0 (some true)))))

/-- `FilterDuplicateReads` (lines 129-131). -/
def FilterDuplicateReads (_ : Header) (aln : Alignment) : Alignment × Bool :=
  (aln, aln.FLAG &&& Duplicate == 0)

/-- Interned tag name (line 133). -/
def sr : String := "sr"

/-- `FilterOptionalReads` (lines 139-146): active only when the "@sr"
user record is present, which it consumes; otherwise no record filter. -/
def FilterOptionalReads (header : Header) :
    Header × Option (Alignment → Alignment × Bool) :=
  if (header.UserRecords.find? (fun p => p.1 == "@sr")).isSome then
    ({ header with
        UserRecords := header.UserRecords.filter (fun p => !(p.1 == "@sr")) },
      some (fun aln => (aln, !(tagsGet aln.TAGS sr).isSome)))
  else (header, none)

/-- `AddOrReplaceReadGroup` (lines 152-158). -/
def AddOrReplaceReadGroup (readGroup : StringMap) (header : Header) :
    Header × (Alignment → Alignment × Bool) :=
  let header := { header with RG := [readGroup] }
  let id := smGetD readGroup "ID"
  (header, fun aln => ({ aln with RG := id }, true))

/-- Hexadecimal digit characters as produced by Go's
`strconv.FormatInt` with base 16 (lowercase). -/
def hexDigit (d : Nat) : Char :=
  "0123456789abcdef".toList.getD d '0'

/-- Go's `strconv.FormatInt(n, 16)` for a non-negative argument: the
minimal-length lowercase hexadecimal rendering, "0" for 0, without any
leading zeros. -/
def formatHex (n : Nat) : String :=
  if _h : n < 16 then String.mk [hexDigit n]
  else formatHex (n / 16) ++ String.mk [hexDigit (n % 16)]
termination_by n
decreasing_by
  exact Nat.div_lt_self (by omega) (by omega)

/-- The identifier collision-avoidance loop of `AddPGLine` (lines
166-169): while the candidate matches an existing PG record's ID, append
the base-16 rendering of the next random draw and retry.  The draws are
the successive results of `rand.Int63n(0x10000)`; the loop, unbounded in
the source, stops with the current candidate when the explicit supply of
draws runs out. -/
def genPGId (pg : List StringMap) : String → List Nat → String
  | id, [] => id
  | id, d :: rest =>
    if 0 ≤ Find pg (fun entry => smGetD entry "ID" == id) then
      genPGId pg (id ++ formatHex (d % 0x10000)) rest
    else id

/-- `AddPGLine` (lines 164-180), with the randomness explicit.  The
source computes a collision-free `id` but never stores it back into
`newPG`; the embedding reproduces this faithfully (`_id` is unused). -/
def AddPGLine (draws : List Nat) (newPG : StringMap) (header : Header) :
    Header :=
  let _id := genPGId header.PG (smGetD newPG "ID") draws
  let newPG :=
    match header.PG.find? (fun PG =>
        decide (Find header.PG
          (fun entry => smGetD entry "PP" == smGetD PG "ID") < 0)) with
    | some PG => smSet newPG "PP" (smGetD PG "ID")
    | none => newPG
  { header with PG := header.PG ++ [newPG] }

/-- `RenameChromosomes` (lines 186-201). -/
def RenameChromosomes (header : Header) :
    Header × (Alignment → Alignment × Bool) :=
  let header := { header with SQ := header.SQ.map (fun entry =>
    if smHasKey entry "SN" then smSet entry "SN" ("chr" ++ smGetD entry "SN")
    else entry) }
  (header, fun aln =>
    let aln :=
      if !(aln.RNAME == "=") && !(aln.RNAME == "*") then
        { aln with RNAME := "chr" ++ aln.RNAME }
      else aln
    let aln :=
      if !(aln.RNEXT == "=") && !(aln.RNEXT == "*") then
        { aln with RNEXT := "chr" ++ aln.RNEXT }
      else aln
    (aln, true))

/-- Go's wrapping conversion `int32(n)` for a non-negative `n`: reduce
modulo 2^32, then reinterpret the upper half as negative. -/
def toInt32 (n : Nat) : Int :=
  if n % 2 ^ 32 < 2 ^ 31 then ((n % 2 ^ 32 : Nat) : Int)
  else ((n % 2 ^ 32 : Nat) : Int) - 2 ^ 32

/-- The name-to-index table built by `AddREFID` (a Go `map[string]int32`
filled in SQ order, so a later binding of the same name overwrites an
earlier one; lookup of an absent key reports not-found).  The stored
value is `int32(index)`, a wrapping conversion of the index. -/
def buildRefidTable (sq : List StringMap) : String → Option Int :=
  sq.enum.foldl (fun table p =>
    fun s => if s = smGetD p.2 "SN" then some (toInt32 p.1) else table s)
    (fun _ => none)

/-- `AddREFID` (lines 207-220). -/
def AddREFID (header : Header) (aln : Alignment) : Alignment × Bool :=
  let value := (buildRefidTable header.SQ aln.RNAME).getD (-1)
  ({ aln with REFID := value }, true)

/-- Old-dictionary indices of the replacement entries whose name occurs
in the old dictionary, in replacement order: the matched subsequence of
the spec's sort-order condition. -/
def matchedIndices (oldDict dict : List StringMap) : List Int :=
  dict.filterMap (fun entry =>
    let pos := Find oldDict (fun e => smGetD e "SN" == smGetD entry "SN")
    if 0 ≤ pos then some pos else none)

/-- The spec's success condition for the sort-order check: the matched
subsequence appears in strictly increasing old-index order. -/
def dictOrderPreserved (oldDict dict : List StringMap) : Prop :=
  List.Chain' (· < ·) (matchedIndices oldDict dict)

instance (oldDict dict : List StringMap) :
    Decidable (dictOrderPreserved oldDict dict) := by
  unfold dictOrderPreserved
  infer_instance

/-- Whether a tag, when present, carries an int32 value, so that the
type assertions of `FilterNonExactMappingReadsStrict` cannot panic. -/
def intTagged (tags : Tags) (key : String) : Bool :=
  match tagsGet tags key with
  | some (TagValue.int _) => true
  | some _ => false
  | none => true

/-- All five exactness tags are int32-valued where present. -/
def wellTypedExactTags (tags : Tags) : Bool :=
  intTagged tags X0 && intTagged tags X1 && intTagged tags XM &&
    intTagged tags XO && intTagged tags XG

/-- The full state visible to a record-phase AlignmentFilter: the shared
Header, the tables captured during the header phase (the dictionary
membership set of `ReplaceReferenceSequenceDictionary`, the
name-to-index table of `AddREFID`, the fixed read-group ID of
`AddOrReplaceReadGroup`), and the Alignment being processed. -/
structure FilterState where
  header : Header
  dictTable : String → Bool
  refidTable : String → Option Int
  rgID : String
  aln : Alignment

/-- Record phase of `ReplaceReferenceSequenceDictionary` as a transition
on the full state: keep the record iff its RNAME is in the captured
membership table. -/
def dictFilterStep (s : FilterState) : FilterState × Bool :=
  (s, s.dictTable s.aln.RNAME)

/-- Record phase of `AddOrReplaceReadGroup` on the full state: stamp the
captured read-group ID onto the record and keep it. -/
def readGroupStep (s : FilterState) : FilterState × Bool :=
  ({ s with aln := { s.aln with RG := s.rgID } }, true)

/-- Record phase of `RenameChromosomes` on the full state. -/
def renameStep (s : FilterState) : FilterState × Bool :=
  let aln := s.aln
  let aln :=
    if !(aln.RNAME == "=") && !(aln.RNAME == "*") then
      { aln with RNAME := "chr" ++ aln.RNAME }
    else aln
  let aln :=
    if !(aln.RNEXT == "=") && !(aln.RNEXT == "*") then
      { aln with RNEXT := "chr" ++ aln.RNEXT }
    else aln
  ({ s with aln := aln }, true)

/-- Record phase of `AddREFID` on the full state: read the captured
name-to-index table, update only the record's REFID. -/
def refidStep (s : FilterState) : FilterState × Bool :=
  ({ s with aln := { s.aln with
      REFID := (s.refidTable s.aln.RNAME).getD (-1) } }, true)

/-- Record phase of `FilterUnmappedReads` on the full state. -/
def unmappedStep (s : FilterState) : FilterState × Bool :=
  (s, s.aln.FLAG &&& Unmapped == 0)

/-- Record phase of `FilterUnmappedReadsStrict` on the full state. -/
def unmappedStrictStep (s : FilterState) : FilterState × Bool :=
  (s, (s.aln.FLAG &&& Unmapped == 0) && !(s.aln.POS == 0) &&
    !(s.aln.RNAME == "*"))

/-- Record phase of `FilterNonExactMappingReads` on the full state. -/
def nonExactStep (s : FilterState) : FilterState × Bool :=
  (s, !(s.aln.CIGAR.toList.any (fun c => "IDNHPX=".toList.contains c)))

/-- Record phase of `FilterNonExactMappingReadsStrict` on the full
state (the decision is `none` when a type assertion panics). -/
def nonExactStrictStep (s : FilterState) : FilterState × Option Bool :=
  (s, tagCheck s.aln.TAGS X0 1 (tagCheck s.aln.TAGS X1 0
    (tagCheck s.aln.TAGS XM 0 (tagCheck s.aln.TAGS XO 0
      (tagCheck s.aln.TAGS XG 0 (some true))))))

/-- Record phase of `FilterDuplicateReads` on the full state. -/
def duplicateStep (s : FilterState) : FilterState × Bool :=
  (s, s.aln.FLAG &&& Duplicate == 0)

/-- Record phase of `FilterOptionalReads` on the full state. -/
def optionalStep (s : FilterState) : FilterState × Bool :=
  (s, !(tagsGet s.aln.TAGS sr).isSome)

/-- An empty Header, used as a concrete test fixture. -/
def hdr0 : Header := ⟨[], [], [], [], []⟩

/-- A blank Alignment, used as a concrete test fixture. -/
def aln0 : Alignment := ⟨0, 0, "", "", "", [], 0, ""⟩

/-- A Header whose dictionary holds the two sequences chrA and chrB. -/
def hdrAB : Header := ⟨[], [[("SN", "chrA")], [("SN", "chrB")]], [], [], []⟩

/-- A Header whose PG chain holds one record with ID "x". -/
def hdrPGx : Header := ⟨[], [], [], [[("ID", "x")]], []⟩

/-- An Alignment aligned to chrA. -/
def alnChrA : Alignment := { aln0 with RNAME := "chrA" }

/-- An Alignment aligned to chrB. -/
def alnChrB : Alignment := { aln0 with RNAME := "chrB" }

/-- An Alignment aligned to a name outside the dictionary fixture. -/
def alnChrC : Alignment := { aln0 with RNAME := "chrC" }

/-- An Alignment whose five exactness tags signal an exact match. -/
def alnExact : Alignment :=
  { aln0 with TAGS := [("X0", TagValue.int 1), ("X1", TagValue.int 0),
      ("XM", TagValue.int 0), ("XO", TagValue.int 0),
      ("XG", TagValue.int 0)] }

/-- An Alignment whose X0 tag is present but holds a string, not an
int32. -/
def alnBadX0 : Alignment := { aln0 with TAGS := [("X0", TagValue.str "abc")] }

theorem smGet_smSet_self (m : StringMap) (k v : String) :
    smGet (smSet m k v) k = some v := by
  induction m with
  | nil => simp [smSet, smGet]
  | cons p rest ih =>
    obtain ⟨k', v'⟩ := p
    by_cases h : k' = k
    · simp [smSet, smGet, h]
    · simp [smSet, smGet, h, ih]

theorem buildDictTable_aux (dict : List StringMap) (t0 : String → Bool)
    (s : String) :
    dict.foldl (fun table entry =>
        fun x => if x = smGetD entry "SN" then true else table x) t0 s
      = (t0 s || dict.any (fun e => smGetD e "SN" == s)) := by
  induction dict generalizing t0 with
  | nil => simp
  | cons e rest ih =>
    simp only [List.foldl_cons, List.any_cons]
    rw [ih]
    by_cases h : s = smGetD e "SN"
    · simp [h]
    · have hbeq : (smGetD e "SN" == s) = false := by
        rw [beq_eq_false_iff_ne]
        exact fun hh => h hh.symm
      simp [h, hbeq]

theorem buildDictTable_spec (dict : List StringMap) (s : String) :
    buildDictTable dict s = true ↔ ∃ e ∈ dict, smGetD e "SN" = s := by
  unfold buildDictTable
  rw [buildDictTable_aux]
  simp [List.any_eq_true, beq_iff_eq]

/-- C3: `ReplaceReferenceSequenceDictionary` replaces SQ by exactly the
supplied dictionary, and the returned record filter keeps an Alignment
(unmodified) if and only if its RNAME equals the SN of some entry of
the new dictionary; any other RNAME, the "*" sentinel included when it
names no entry, is dropped. -/
theorem ReplaceReferenceSequenceDictionary_SQ_and_filter
    (dict : List StringMap) (header : Header) (aln : Alignment) :
    (ReplaceReferenceSequenceDictionary dict header).1.SQ = dict ∧
    ((ReplaceReferenceSequenceDictionary dict header).2 aln).1 = aln ∧
    (((ReplaceReferenceSequenceDictionary dict header).2 aln).2 = true ↔
      ∃ e ∈ dict, smGetD e "SN" = aln.RNAME) := by
  refine ⟨rfl, rfl, ?_⟩
  exact buildDictTable_spec dict aln.RNAME

/-- C10: `FilterNonExactMappingReadsStrict` is only total when the
exactness tags hold int32 values: at an Alignment whose X0 tag is
present with a string value, the int32 type assertion panics (embedded
result `none`) instead of returning a boolean. -/
theorem FilterNonExactMappingReadsStrict_panics_on_non_int32 :
    FilterNonExactMappingReadsStrict hdr0 alnBadX0 = none ∧
    tagsGet alnBadX0.TAGS X0 = some (TagValue.str "abc") := by
  decide

theorem and_unmapped_eq_zero_iff (n : Nat) :
    (n &&& Unmapped == 0) = false ↔ n.testBit 2 := by
  have h4 : n &&& Unmapped = (n.testBit 2).toNat * 4 := by
    have h := Nat.and_two_pow n 2
    norm_num at h
    simpa [Unmapped] using h
  cases hb : n.testBit 2 <;> simp [h4, hb]

/-- C7: `FilterUnmappedReads` excludes an Alignment exactly when the
Unmapped bit (bit 2) of FLAG is set, while `FilterUnmappedReadsStrict`
excludes exactly when that bit is set, or POS is 0, or RNAME is "*",
so a record with the bit clear is still excluded in the strict variant
when POS is 0 or RNAME is "*". -/
theorem FilterUnmappedReads_spec (header : Header) (aln : Alignment) :
    ((FilterUnmappedReads header aln).2 = false ↔ aln.FLAG.testBit 2) ∧
    ((FilterUnmappedReadsStrict header aln).2 = false ↔
      (aln.FLAG.testBit 2 ∨ aln.POS = 0 ∨ aln.RNAME = "*")) := by
  constructor
  · exact and_unmapped_eq_zero_iff aln.FLAG
  · show ((aln.FLAG &&& Unmapped == 0) && !(aln.POS == 0) &&
      !(aln.RNAME == "*")) = false ↔ _
    have hA := and_unmapped_eq_zero_iff aln.FLAG
    by_cases h1 : aln.FLAG.testBit 2
    · rw [hA.mpr h1]
      simp [h1]
    · have hX : (aln.FLAG &&& Unmapped == 0) = true := by
        cases hx : (aln.FLAG &&& Unmapped == 0)
        · exact absurd (hA.mp hx) h1
        · rfl
      rw [hX]
      by_cases h2 : aln.POS = 0
      · simp [h1, h2]
      · by_cases h3 : aln.RNAME = "*"
        · simp [h1, h2, h3]
        · simp [h1, h2, h3]

theorem matchedIndices_cons (oldDict : List StringMap) (entry : StringMap)
    (rest : List StringMap) :
    matchedIndices oldDict (entry :: rest) =
      if (0:Int) ≤ Find oldDict (fun e => smGetD e "SN" == smGetD entry "SN")
      then Find oldDict (fun e => smGetD e "SN" == smGetD entry "SN") ::
        matchedIndices oldDict rest
      else matchedIndices oldDict rest := by
  by_cases h :
      (0:Int) ≤ Find oldDict (fun e => smGetD e "SN" == smGetD entry "SN")
  · simp [matchedIndices, List.filterMap_cons, h]
  · simp [matchedIndices, List.filterMap_cons, h]

theorem soLoop_eq (oldDict : List StringMap) (header : Header)
    (dict : List StringMap) (p : Int) :
    soLoop oldDict header dict p =
      if List.Chain (· < ·) p (matchedIndices oldDict dict) then header
      else header.SetHD_SO "unknown" := by
  induction dict generalizing p with
  | nil => simp [soLoop, matchedIndices]
  | cons entry rest ih =>
    simp only [soLoop, matchedIndices_cons]
    by_cases hpos :
        (0:Int) ≤ Find oldDict (fun e => smGetD e "SN" == smGetD entry "SN")
    · rw [if_pos hpos, if_pos hpos]
      by_cases hlt :
          p < Find oldDict (fun e => smGetD e "SN" == smGetD entry "SN")
      · rw [if_pos hlt, ih]
        have hc : List.Chain (· < ·) p
            (Find oldDict (fun e => smGetD e "SN" == smGetD entry "SN") ::
              matchedIndices oldDict rest) ↔
            List.Chain (· < ·)
              (Find oldDict (fun e => smGetD e "SN" == smGetD entry "SN"))
              (matchedIndices oldDict rest) := by
          rw [List.chain_cons]
          simp [hlt]
        rw [if_congr hc rfl rfl]
      · rw [if_neg hlt]
        rw [if_neg]
        rw [List.chain_cons]
        exact fun hch => hlt hch.1
    · rw [if_neg hpos, if_neg hpos, ih]

theorem matchedIndices_nonneg (oldDict dict : List StringMap) :
    ∀ x ∈ matchedIndices oldDict dict, (0:Int) ≤ x := by
  intro x hx
  simp only [matchedIndices, List.mem_filterMap] at hx
  obtain ⟨e, _, he⟩ := hx
  split at he
  · cases he
    assumption
  · cases he

theorem chain_neg_one (l : List Int) (h : ∀ x ∈ l, (0:Int) ≤ x) :
    List.Chain (· < ·) (-1) l ↔ List.Chain' (· < ·) l := by
  cases l with
  | nil => simp
  | cons b bs =>
    have hb : (0:Int) ≤ b := h b (List.mem_cons_self _ _)
    rw [List.chain_cons]
    show _ ↔ List.Chain (· < ·) b bs
    constructor
    · exact fun hc => hc.2
    · exact fun hc => ⟨by omega, hc⟩

/-- C1: when the Header's SO tag is "coordinate",
`ReplaceReferenceSequenceDictionary` leaves SO at "coordinate" exactly
when the subsequence of replacement entries whose SN occurs in the old
dictionary appears in strictly increasing old-index order (entries
absent from the old dictionary impose no constraint), and downgrades SO
to "unknown" otherwise; when SO is not "coordinate" the check is
skipped and SO is left unchanged. -/
theorem ReplaceReferenceSequenceDictionary_SO_spec
    (dict : List StringMap) (header : Header) :
    smGetD (ReplaceReferenceSequenceDictionary dict header).1.HD "SO" =
      if smGetD header.HD "SO" = "coordinate" then
        (if dictOrderPreserved header.SQ dict then "coordinate"
         else "unknown")
      else smGetD header.HD "SO" := by
  unfold ReplaceReferenceSequenceDictionary
  by_cases hso : smGetD header.HD "SO" = "coordinate"
  · rw [if_pos hso, if_pos hso, soLoop_eq]
    have hiff : List.Chain (· < ·) (-1) (matchedIndices header.SQ dict) ↔
        dictOrderPreserved header.SQ dict :=
      chain_neg_one _ (matchedIndices_nonneg header.SQ dict)
    rw [if_congr hiff rfl rfl]
    by_cases hp : dictOrderPreserved header.SQ dict
    · rw [if_pos hp, if_pos hp]
      exact hso
    · rw [if_neg hp, if_neg hp]
      show smGetD (smSet header.HD "SO" "unknown") "SO" = "unknown"
      rw [smGetD, smGet_smSet_self]
      rfl
  · rw [if_neg hso, if_neg hso]

theorem rename_entry_SN (entry : StringMap) :
    smGet (if smHasKey entry "SN" then
        smSet entry "SN" ("chr" ++ smGetD entry "SN") else entry) "SN"
      = (smGet entry "SN").map (fun s => "chr" ++ s) := by
  by_cases h : smHasKey entry "SN"
  · obtain ⟨v, hv⟩ := Option.isSome_iff_exists.mp h
    rw [if_pos h, smGet_smSet_self, hv]
    simp [smGetD, hv]
  · have hnone : smGet entry "SN" = none :=
      Option.not_isSome_iff_eq_none.mp h
    rw [if_neg h, hnone]
    rfl

/-- C4: `RenameChromosomes` prefixes the SN of every SQ entry with
"chr" exactly once in the header phase, and its record filter keeps
every Alignment, prefixing RNAME and RNEXT with "chr" exactly once
except for the sentinels "*" and "=", which pass through unmodified. -/
theorem RenameChromosomes_spec (header : Header) (aln : Alignment) :
    ((RenameChromosomes header).1.SQ.map (fun e => smGet e "SN")
      = header.SQ.map (fun e => (smGet e "SN").map (fun s => "chr" ++ s))) ∧
    ((RenameChromosomes header).2 aln).2 = true ∧
    ((RenameChromosomes header).2 aln).1.RNAME
      = (if aln.RNAME = "*" ∨ aln.RNAME = "=" then aln.RNAME
         else "chr" ++ aln.RNAME) ∧
    ((RenameChromosomes header).2 aln).1.RNEXT
      = (if aln.RNEXT = "*" ∨ aln.RNEXT = "=" then aln.RNEXT
         else "chr" ++ aln.RNEXT) := by
  refine ⟨?_, rfl, ?_, ?_⟩
  · show (header.SQ.map _).map _ = _
    rw [List.map_map]
    exact List.map_congr_left (fun e _ => rename_entry_SN e)
  · show ((let a1 := if !(aln.RNAME == "=") && !(aln.RNAME == "*") then
        { aln with RNAME := "chr" ++ aln.RNAME } else aln;
      let a2 := if !(a1.RNEXT == "=") && !(a1.RNEXT == "*") then
        { a1 with RNEXT := "chr" ++ a1.RNEXT } else a1;
      (a2, true)).1).RNAME = _
    by_cases h1 : aln.RNAME = "=" <;> by_cases h2 : aln.RNAME = "*" <;>
      by_cases h3 : aln.RNEXT = "=" <;> by_cases h4 : aln.RNEXT = "*" <;>
      simp [h1, h2, h3, h4]
  · show ((let a1 := if !(aln.RNAME == "=") && !(aln.RNAME == "*") then
        { aln with RNAME := "chr" ++ aln.RNAME } else aln;
      let a2 := if !(a1.RNEXT == "=") && !(a1.RNEXT == "*") then
        { a1 with RNEXT := "chr" ++ a1.RNEXT } else a1;
      (a2, true)).1).RNEXT = _
    by_cases h1 : aln.RNAME = "=" <;> by_cases h2 : aln.RNAME = "*" <;>
      by_cases h3 : aln.RNEXT = "=" <;> by_cases h4 : aln.RNEXT = "*" <;>
      simp [h1, h2, h3, h4]

/-- C8: no record-phase step of any filter of this module changes the
Header or any table captured during the header phase — the dictionary
membership set, the name-to-index table and the fixed read-group ID
components of the state are returned unchanged by every step, so only
the Alignment component may be mutated. -/
theorem record_phase_frame (s : FilterState) :
    ((dictFilterStep s).1.header = s.header ∧
      (dictFilterStep s).1.dictTable = s.dictTable ∧
      (dictFilterStep s).1.refidTable = s.refidTable ∧
      (dictFilterStep s).1.rgID = s.rgID) ∧
    ((readGroupStep s).1.header = s.header ∧
      (readGroupStep s).1.dictTable = s.dictTable ∧
      (readGroupStep s).1.refidTable = s.refidTable ∧
      (readGroupStep s).1.rgID = s.rgID) ∧
    ((renameStep s).1.header = s.header ∧
      (renameStep s).1.dictTable = s.dictTable ∧
      (renameStep s).1.refidTable = s.refidTable ∧
      (renameStep s).1.rgID = s.rgID) ∧
    ((refidStep s).1.header = s.header ∧
      (refidStep s).1.dictTable = s.dictTable ∧
      (refidStep s).1.refidTable = s.refidTable ∧
      (refidStep s).1.rgID = s.rgID) ∧
    ((unmappedStep s).1 = s ∧ (unmappedStrictStep s).1 = s ∧
      (nonExactStep s).1 = s ∧ (nonExactStrictStep s).1 = s ∧
      (duplicateStep s).1 = s ∧ (optionalStep s).1 = s) := by
  refine ⟨⟨rfl, rfl, rfl, rfl⟩, ⟨rfl, rfl, rfl, rfl⟩,
    ⟨rfl, rfl, rfl, rfl⟩, ⟨rfl, rfl, rfl, rfl⟩,
    rfl, rfl, rfl, rfl, rfl, rfl⟩

theorem formatHex_of_lt {n : Nat} (h : n < 16) :
    formatHex n = String.mk [hexDigit n] := by
  rw [formatHex]
  simp [h]

theorem formatHex_of_ge {n : Nat} (h : ¬ n < 16) :
    formatHex n = formatHex (n / 16) ++ String.mk [hexDigit (n % 16)] := by
  rw [formatHex]
  simp [h]

theorem formatHex_length_pos (n : Nat) : 1 ≤ (formatHex n).length := by
  by_cases h : n < 16
  · rw [formatHex_of_lt h]
    rfl
  · rw [formatHex_of_ge h, String.length_append]
    have h1 : (String.mk [hexDigit (n % 16)]).length = 1 := rfl
    omega

theorem formatHex_length_le (k : Nat) :
    ∀ n : Nat, n < 16 ^ k → 1 ≤ k → (formatHex n).length ≤ k := by
  induction k with
  | zero => intro n _ h1; omega
  | succ k ih =>
    intro n hn _
    by_cases h : n < 16
    · rw [formatHex_of_lt h]
      have h1 : (String.mk [hexDigit n]).length = 1 := rfl
      omega
    · have hk : 1 ≤ k := by
        by_contra hk
        have hk0 : k = 0 := by omega
        subst hk0
        simp [pow_succ, pow_zero] at hn
        omega
      have hdiv : n / 16 < 16 ^ k := by
        rw [Nat.div_lt_iff_lt_mul (by norm_num : (0:Nat) < 16)]
        calc n < 16 ^ (k + 1) := hn
          _ = 16 ^ k * 16 := by rw [pow_succ]
      have hlen := ih (n / 16) hdiv hk
      rw [formatHex_of_ge h, String.length_append]
      have h1 : (String.mk [hexDigit (n % 16)]).length = 1 := rfl
      omega

theorem formatHex_five : formatHex 5 = "5" := by
  rw [formatHex_of_lt (by norm_num)]
  decide

theorem formatHex_zero : formatHex 0 = "0" := by
  rw [formatHex_of_lt (by norm_num)]
  decide

theorem formatHex_pow : formatHex 4096 = "1000" := by
  have h1 : formatHex 1 = "1" := by
    rw [formatHex_of_lt (by norm_num)]
    decide
  have h16 : formatHex 16 = "10" := by
    rw [formatHex_of_ge (by norm_num)]
    norm_num
    rw [h1]
    decide
  have h256 : formatHex 256 = "100" := by
    rw [formatHex_of_ge (by norm_num)]
    norm_num
    rw [h16]
    decide
  rw [formatHex_of_ge (by norm_num)]
  norm_num
  rw [h256]
  decide

/-- C9 counterexample: the suffix appended to the candidate ID by the
collision-avoidance loop of `AddPGLine` is not of a fixed width: for
the possible draws 0 and 4096 (both below 0x10000) the loop appends
"0" (one hexadecimal digit) and "1000" (four hexadecimal digits). -/
theorem genPGId_suffix_width_varies :
    genPGId [[("ID", "x")]] "x" [0] = "x0" ∧
    genPGId [[("ID", "x")]] "x" [4096] = "x1000" ∧
    ("0" : String).length ≠ ("1000" : String).length := by
  have hfind : (0:Int) ≤ Find [[("ID", "x")]]
      (fun entry => smGetD entry "ID" == "x") := by decide
  refine ⟨?_, ?_, by decide⟩
  · simp only [genPGId, if_pos hfind]
    have hm : (0:Nat) % 65536 = 0 := by norm_num
    rw [hm, formatHex_zero]
    decide
  · simp only [genPGId, if_pos hfind]
    have hm : (4096:Nat) % 65536 = 4096 := by norm_num
    rw [hm, formatHex_pow]
    decide

/-- C9 amended: the suffix appended for a draw is the minimal-length
hexadecimal rendering of that draw (a value below 0x10000), so its
width is between one and four digits rather than fixed. -/
theorem genPGId_suffix_width_bounds (d : Nat) :
    1 ≤ (formatHex (d % 0x10000)).length ∧
      (formatHex (d % 0x10000)).length ≤ 4 := by
  constructor
  · exact formatHex_length_pos _
  · refine formatHex_length_le 4 _ ?_ (by norm_num)
    have h : d % 65536 < 65536 := Nat.mod_lt _ (by norm_num)
    norm_num
    omega

/-- C2 (code bug): at the Header whose PG chain is `[{ID: x}]` and the
new record `{ID: x}`, `AddPGLine` appends the record under its original
ID "x", leaving two PG records with the same ID, even though the
collision-avoidance loop had computed the fresh unique candidate "x5"
(random draw 5): the source never stores the fresh ID back into the new
record.  The PP link itself is set to the scanned tail as specified. -/
theorem AddPGLine_appends_colliding_id :
    (AddPGLine [5] [("ID", "x")] hdrPGx).PG
      = [[("ID", "x")], [("ID", "x"), ("PP", "x")]] ∧
    genPGId hdrPGx.PG "x" [5] = "x5" := by
  constructor
  · decide
  · have hfind : (0:Int) ≤ Find hdrPGx.PG
        (fun entry => smGetD entry "ID" == "x") := by decide
    simp only [hdrPGx, genPGId]
    have hm : (5:Nat) % 65536 = 5 := by norm_num
    rw [hm, formatHex_five]
    decide

theorem toInt32_of_lt {n : Nat} (h : n < 2 ^ 31) : toInt32 n = (n : Int) := by
  unfold toInt32
  rw [Nat.mod_eq_of_lt (by omega)]
  rw [if_pos h]

theorem findIdx?_some_lt_length {α : Type} (p : α → Bool) :
    ∀ (l : List α) (i : Nat), l.findIdx? p = some i → i < l.length := by
  intro l
  induction l with
  | nil => intro i h; simp at h
  | cons a rest ih =>
    intro i h
    rw [List.findIdx?_cons, List.findIdx?_succ] at h
    by_cases hp : p a
    · rw [if_pos hp] at h
      cases h
      simp
    · rw [if_neg hp] at h
      cases hfi : rest.findIdx? p with
      | none => rw [hfi] at h; cases h
      | some j =>
        rw [hfi] at h
        cases h
        have := ih j hfi
        simp
        omega

theorem refidTable_aux (sq : List StringMap) :
    ∀ (n : Nat) (t0 : String → Option Int) (s : String),
    (sq.map (fun e => smGetD e "SN")).Nodup →
    (sq.enumFrom n).foldl (fun table p =>
        fun x => if x = smGetD p.2 "SN" then some (toInt32 p.1) else table x)
      t0 s
      = (match List.findIdx? (fun e => smGetD e "SN" == s) sq n with
         | some i => some (toInt32 i)
         | none => t0 s) := by
  induction sq with
  | nil => intro n t0 s _; rfl
  | cons e rest ih =>
    intro n t0 s hnd
    rw [List.map_cons] at hnd
    obtain ⟨hnotin, hnd'⟩ := List.nodup_cons.mp hnd
    rw [List.enumFrom_cons]
    simp only [List.foldl_cons]
    rw [ih (n + 1) _ s hnd']
    rw [List.findIdx?_cons]
    by_cases hs : smGetD e "SN" = s
    · have hrest0 : List.findIdx? (fun e' => smGetD e' "SN" == s) rest
          = none := by
        rw [List.findIdx?_eq_none_iff]
        intro x hx
        rw [beq_eq_false_iff_ne]
        intro hxs
        exact hnotin (hs ▸ hxs ▸ List.mem_map_of_mem _ hx)
      simp [hrest0, hs]
    · have hs' : ¬ s = smGetD e "SN" := fun hh => hs hh.symm
      have hbeq : (smGetD e "SN" == s) = false := by
        rw [beq_eq_false_iff_ne]
        exact hs
      cases hfi : List.findIdx? (fun e' => smGetD e' "SN" == s) rest
      · simp [hbeq, hfi, hs']
      · simp [hbeq, hfi]

/-- C5: when the SQ entries' names are distinct (the Header invariant)
and the dictionary is small enough that the stored `int32(index)` does
not wrap, the record filter of `AddREFID` always keeps the Alignment
and sets its REFID to the index of the first SQ entry whose SN equals
RNAME, or to -1 when no entry matches. -/
theorem AddREFID_spec (header : Header)
    (hnd : (header.SQ.map (fun e => smGetD e "SN")).Nodup)
    (hlen : header.SQ.length < 2 ^ 31)
    (aln : Alignment) :
    (AddREFID header aln).2 = true ∧
    (AddREFID header aln).1.REFID
      = (match header.SQ.findIdx? (fun e => smGetD e "SN" == aln.RNAME) with
         | some i => (i : Int)
         | none => -1) ∧
    (AddREFID header aln).1.RNAME = aln.RNAME := by
  refine ⟨rfl, ?_, rfl⟩
  show (buildRefidTable header.SQ aln.RNAME).getD (-1) = _
  unfold buildRefidTable
  rw [show header.SQ.enum = header.SQ.enumFrom 0 from rfl]
  rw [refidTable_aux header.SQ 0 _ aln.RNAME hnd]
  cases hfi : List.findIdx? (fun e => smGetD e "SN" == aln.RNAME) header.SQ 0
  · rfl
  · next i =>
    have hi : i < header.SQ.length :=
      findIdx?_some_lt_length _ header.SQ i hfi
    show toInt32 i = (i : Int)
    exact toInt32_of_lt (by omega)

/-- C5 witness: with SQ = [chrA, chrB], an Alignment aligned to chrA
receives REFID 0, one aligned to chrB receives 1, and one aligned to a
name outside the dictionary receives -1; all three are kept. -/
theorem AddREFID_spec_witness :
    (AddREFID hdrAB alnChrA).1.REFID = 0 ∧
    (AddREFID hdrAB alnChrB).1.REFID = 1 ∧
    (AddREFID hdrAB alnChrC).1.REFID = -1 ∧
    (AddREFID hdrAB alnChrA).2 = true := by
  refine ⟨?_, ?_, ?_,
    (AddREFID_spec hdrAB (by decide) (by decide) alnChrA).1⟩
  · rw [(AddREFID_spec hdrAB (by decide) (by decide) alnChrA).2.1]
    decide
  · rw [(AddREFID_spec hdrAB (by decide) (by decide) alnChrB).2.1]
    decide
  · rw [(AddREFID_spec hdrAB (by decide) (by decide) alnChrC).2.1]
    decide

theorem tagCheck_eq (tags : Tags) (key : String) (e : Int)
    (next : Option Bool) (b : Bool) (hk : intTagged tags key = true)
    (hnext : next = some b) :
    tagCheck tags key e next
      = some ((tagsGet tags key == some (TagValue.int e)) && b) := by
  unfold tagCheck
  cases h : tagsGet tags key with
  | none => simp [h]
  | some v =>
    cases v with
    | int i =>
      subst hnext
      by_cases he : i = e
      · simp [h, he]
      · simp [h, beq_iff_eq, he]
    | str s => simp [intTagged, h] at hk
    | char c => simp [intTagged, h] at hk

/-- C6: when the five exactness tags carry int32 values where present,
`FilterNonExactMappingReadsStrict` returns true exactly when all five
of X0, X1, XM, XO, XG are present with the exact values X0=1, X1=0,
XM=0, XO=0, XG=0, and returns false when any of the five is absent or
has a different value. -/
theorem FilterNonExactMappingReadsStrict_spec (header : Header)
    (aln : Alignment) (h : wellTypedExactTags aln.TAGS = true) :
    FilterNonExactMappingReadsStrict header aln
      = some ((tagsGet aln.TAGS X0 == some (TagValue.int 1)) &&
          (tagsGet aln.TAGS X1 == some (TagValue.int 0)) &&
          (tagsGet aln.TAGS XM == some (TagValue.int 0)) &&
          (tagsGet aln.TAGS XO == some (TagValue.int 0)) &&
          (tagsGet aln.TAGS XG == some (TagValue.int 0))) := by
  simp only [wellTypedExactTags, Bool.and_eq_true] at h
  obtain ⟨⟨⟨⟨h0, h1⟩, hm⟩, ho⟩, hg⟩ := h
  have hG := tagCheck_eq aln.TAGS XG 0 (some true) true hg rfl
  have hO := tagCheck_eq aln.TAGS XO 0 _ _ ho hG
  have hM := tagCheck_eq aln.TAGS XM 0 _ _ hm hO
  have hX1 := tagCheck_eq aln.TAGS X1 0 _ _ h1 hM
  have hX0 := tagCheck_eq aln.TAGS X0 1 _ _ h0 hX1
  show tagCheck aln.TAGS X0 1 _ = _
  rw [hX0]
  congr 1
  simp only [Bool.and_true, Bool.and_assoc]

/-- C6 witness: an Alignment carrying exactly X0=1, X1=0, XM=0, XO=0,
XG=0 as int32 tags is kept by the strict exactness filter. -/
theorem FilterNonExactMappingReadsStrict_spec_witness :
    FilterNonExactMappingReadsStrict hdr0 alnExact = some true := by
  rw [FilterNonExactMappingReadsStrict_spec hdr0 alnExact (by decide)]
  decide

end Sam
